import Mathlib

/-
  Verification development for the Tandem booking coordination engine.

  The definitions below are a shallow embedding of the repository's booking
  logic:
  - the `bookings` table schema and its partial unique index
    `unique_active_booking_per_resource` (backend/migrations/V1_initial_schema.sql),
  - the client operation handlers `handleBook`, `handleRelease`, `handleExtend`,
    `handleEdit` (BookingForm component),
  - the SQL function `auto_release_expired_bookings` (the sweep),
  - the resource status projection of `fetchResources` (Dashboard component),
  - the resource soft-delete cascade `handleDelete` (Admin page).

  Timestamps are modelled as naturals; SQL NULL as `Option.none`.
-/

namespace Tandem

abbrev Timestamp := Nat

/-- Row of the `resources` table (V1 schema plus the V2 `deleted_at` column). -/
structure Resource where
  id : Nat
  name : String
  labels : Option String := none
  created_at : Timestamp := 0
  updated_at : Timestamp := 0
  deleted_at : Option Timestamp := none
deriving Repr, DecidableEq

/-- Row of the `bookings` table (V1 schema plus the V2 `deleted_at` column). -/
structure Booking where
  id : Nat
  resource_id : Nat
  booked_by : String
  branch : String
  notes : Option String := none
  build_link : Option String := none
  expires_at : Timestamp
  created_at : Timestamp := 0
  released_at : Option Timestamp := none
  deleted_at : Option Timestamp := none
deriving Repr, DecidableEq

/-- The `action` column of `booking_history` (V2 constraint includes DELETE). -/
inductive HistoryAction
  | BOOK | EXTEND | RELEASE | EXPIRED | EDIT | DELETE
deriving Repr, DecidableEq

/-- Row of the append-only `booking_history` table. -/
structure HistoryRow where
  booking_id : Nat
  action : HistoryAction
  resource_id : Nat
  booked_by : String
  branch : String
  notes : Option String := none
  build_link : Option String := none
  expires_at : Timestamp
  released_at : Option Timestamp := none
  timestamp : Timestamp
deriving Repr, DecidableEq

/-- The three tables of the store. -/
structure Store where
  resources : List Resource
  bookings : List Booking
  history : List HistoryRow
deriving Repr, DecidableEq

/-- The rows counted by the partial unique index
`unique_active_booking_per_resource ON bookings(resource_id) WHERE released_at IS NULL`
for a given resource: the filter is on `released_at` only. -/
def unreleasedFor (bs : List Booking) (rid : Nat) : List Booking :=
  bs.filter (fun b => b.resource_id == rid && b.released_at.isNone)

/-- The rows that are "active" in the sense of invariant I1:
`released_at IS NULL AND deleted_at IS NULL`. -/
def activeFor (bs : List Booking) (rid : Nat) : List Booking :=
  bs.filter (fun b => (b.resource_id == rid && b.released_at.isNone) && b.deleted_at.isNone)

/-- The store's partial unique index holds: per resource, at most one row with
`released_at IS NULL` (irrespective of `deleted_at`). -/
def uniqueIndexOk (bs : List Booking) : Prop :=
  ∀ rid, (unreleasedFor bs rid).length ≤ 1

/-- Invariant I1: per resource, at most one row with
`released_at IS NULL AND deleted_at IS NULL`. -/
def invariantI1 (bs : List Booking) : Prop :=
  ∀ rid, (activeFor bs rid).length ≤ 1

/-- Store-level error on an insert into `bookings`. -/
inductive StoreErr
  | uniqueViolation
  | fkViolation
deriving Repr, DecidableEq

/-- Store-level insert into `bookings`: enforces the foreign key
`resource_id REFERENCES resources(id)` (mere row existence — a soft-deleted
resource row still satisfies it) and the partial unique index. -/
def insertBooking (s : Store) (b : Booking) : Except StoreErr Store :=
  if !(s.resources.any (fun r => r.id == b.resource_id)) then
    .error .fkViolation
  else if b.released_at.isNone && !(unreleasedFor s.bookings b.resource_id).isEmpty then
    .error .uniqueViolation
  else
    .ok { s with bookings := s.bookings ++ [b] }

/-- The handlers run `await supabase.from('booking_history').insert(...)` without
checking the returned error: when the insert fails (`histOk = false`) the row is
simply missing and no error is raised. -/
def insertHistoryUnchecked (s : Store) (h : HistoryRow) (histOk : Bool) : Store :=
  if histOk then { s with history := s.history ++ [h] } else s

/-- An `.update(patch).eq('id', bid)` call: patches every row whose id matches,
with no further WHERE condition. -/
def updateBookingById (bs : List Booking) (bid : Nat) (patch : Booking → Booking) :
    List Booking :=
  bs.map (fun b => if b.id == bid then patch b else b)

/-- JS `String.prototype.trim`: strip leading and trailing whitespace. -/
def jsTrim (s : String) : String :=
  ⟨(((s.data.dropWhile Char.isWhitespace).reverse.dropWhile Char.isWhitespace).reverse)⟩

/-- JS `s.trim() || null`: an empty-after-trim string is stored as SQL NULL. -/
def trimOrNull (s : String) : Option String :=
  if jsTrim s = "" then none else some (jsTrim s)

/-- JS `x || null` on an already-optional string: an empty string collapses to null. -/
def optOrNull : Option String → Option String
  | some s => if s = "" then none else some s
  | none => none

/-- Inputs of the booking form. -/
structure BookInput where
  bookedBy : String
  branch : String
  notes : String := ""
  buildLink : String := ""
  expiresAt : Timestamp
deriving Repr, DecidableEq

/-- An error observed by a handler: either a client-side validation message set
before any store call, or an error object thrown by the store. -/
inductive OpError
  | validationMsg (msg : String)
  | storeErr (e : StoreErr)
deriving Repr, DecidableEq

/-- The booking row built by `handleBook`'s insert payload. -/
def bookingFromInput (resourceId : Nat) (inp : BookInput) (now freshId : Nat) : Booking :=
  { id := freshId
    resource_id := resourceId
    booked_by := jsTrim inp.bookedBy
    branch := jsTrim inp.branch
    notes := trimOrNull inp.notes
    build_link := trimOrNull inp.buildLink
    expires_at := inp.expiresAt
    created_at := now
    released_at := none
    deleted_at := none }

/-- The BOOK history row `handleBook` inserts, mirroring the insert payload. -/
def mkBookRow (resourceId : Nat) (inp : BookInput) (now freshId : Nat) : HistoryRow :=
  { booking_id := freshId
    action := .BOOK
    resource_id := resourceId
    booked_by := jsTrim inp.bookedBy
    branch := jsTrim inp.branch
    notes := trimOrNull inp.notes
    build_link := trimOrNull inp.buildLink
    expires_at := inp.expiresAt
    released_at := none
    timestamp := now }

/-- BookingForm `handleBook`: validates the trimmed name and branch, inserts the
booking (the store arbitrates via FK and the unique index), then appends a BOOK
history row whose insert result is not checked. -/
def handleBook (s : Store) (resourceId : Nat) (inp : BookInput)
    (now freshId : Nat) (histOk : Bool) : Except OpError Store :=
  if jsTrim inp.bookedBy = "" then
    .error (.validationMsg ("Your name is required"))
  else if jsTrim inp.branch = "" then
    .error (.validationMsg ("Branch name is required"))
  else
    match insertBooking s (bookingFromInput resourceId inp now freshId) with
    | .error e => .error (.storeErr e)
    | .ok s1 => .ok (insertHistoryUnchecked s1 (mkBookRow resourceId inp now freshId) histOk)

/-- The message the catch block shows: `err.message || 'Failed to create booking'`,
where the store error's message text comes from the store itself. -/
def surfacedBookError (e : OpError) (storeMsg : StoreErr → String) : String :=
  match e with
  | .validationMsg m => m
  | .storeErr se => if storeMsg se = "" then "Failed to create booking" else storeMsg se

/-- The patch of a release: set `released_at = now`. -/
def releasePatch (now : Timestamp) (b : Booking) : Booking :=
  { b with released_at := some now }

/-- The RELEASE history row `handleRelease` inserts, built from the
`resource.current_booking` snapshot `cb`. -/
def mkReleaseRow (cb : Booking) (now : Timestamp) : HistoryRow :=
  { booking_id := cb.id
    action := .RELEASE
    resource_id := cb.resource_id
    booked_by := cb.booked_by
    branch := cb.branch
    notes := optOrNull cb.notes
    build_link := optOrNull cb.build_link
    expires_at := cb.expires_at
    released_at := some now
    timestamp := now }

/-- BookingForm `handleRelease`: an unconditional
`.update(released_at := now).eq('id', cb.id)` — no `released_at IS NULL`
re-check — followed by an unchecked RELEASE history insert. `cb` is the
`resource.current_booking` snapshot the form holds. -/
def handleRelease (s : Store) (cb : Booking) (now : Timestamp) (histOk : Bool) : Store :=
  let s1 := { s with bookings := updateBookingById s.bookings cb.id (releasePatch now) }
  insertHistoryUnchecked s1 (mkReleaseRow cb now) histOk

/-- The EXTEND history row `handleExtend` inserts. -/
def mkExtendRow (cb : Booking) (newExpiresAt now : Timestamp) : HistoryRow :=
  { booking_id := cb.id
    action := .EXTEND
    resource_id := cb.resource_id
    booked_by := cb.booked_by
    branch := cb.branch
    notes := optOrNull cb.notes
    build_link := optOrNull cb.build_link
    expires_at := newExpiresAt
    released_at := none
    timestamp := now }

/-- BookingForm `handleExtend`: an unconditional
`.update(expires_at := newExpiresAt).eq('id', cb.id)` followed by an unchecked
EXTEND history insert. There is no error path. -/
def handleExtend (s : Store) (cb : Booking) (newExpiresAt now : Timestamp)
    (histOk : Bool) : Store :=
  let s1 := { s with bookings :=
    updateBookingById s.bookings cb.id (fun b => { b with expires_at := newExpiresAt }) }
  insertHistoryUnchecked s1 (mkExtendRow cb newExpiresAt now) histOk

/-- Inputs of the edit form. -/
structure EditInput where
  branch : String
  notes : String := ""
  buildLink : String := ""
deriving Repr, DecidableEq

/-- The EDIT history row `handleEdit` inserts, reflecting the post-edit values. -/
def mkEditRow (cb : Booking) (inp : EditInput) (now : Timestamp) : HistoryRow :=
  { booking_id := cb.id
    action := .EDIT
    resource_id := cb.resource_id
    booked_by := cb.booked_by
    branch := jsTrim inp.branch
    notes := trimOrNull inp.notes
    build_link := trimOrNull inp.buildLink
    expires_at := cb.expires_at
    released_at := none
    timestamp := now }

/-- The patch `handleEdit` applies to the booking row. -/
def editPatch (inp : EditInput) (b : Booking) : Booking :=
  { b with branch := jsTrim inp.branch
           notes := trimOrNull inp.notes
           build_link := trimOrNull inp.buildLink }

/-- BookingForm `handleEdit`: validates the trimmed branch, then an unconditional
`.update(branch, notes, build_link).eq('id', cb.id)` followed by an unchecked
EDIT history insert. -/
def handleEdit (s : Store) (cb : Booking) (inp : EditInput) (now : Timestamp)
    (histOk : Bool) : Except OpError Store :=
  if jsTrim inp.branch = "" then
    .error (.validationMsg ("Branch name is required"))
  else
    let s1 := { s with bookings := updateBookingById s.bookings cb.id (editPatch inp) }
    .ok (insertHistoryUnchecked s1 (mkEditRow cb inp now) histOk)

/-- The SELECT of `auto_release_expired_bookings`:
`WHERE released_at IS NULL AND expires_at <= NOW()` — there is no `deleted_at`
condition. -/
def expiredSelect (bs : List Booking) (now : Timestamp) : List Booking :=
  bs.filter (fun b => b.released_at.isNone && decide (b.expires_at ≤ now))

/-- The EXPIRED history row the sweep inserts, built from the pre-sweep row. -/
def mkExpiredRow (now : Timestamp) (eb : Booking) : HistoryRow :=
  { booking_id := eb.id
    action := .EXPIRED
    resource_id := eb.resource_id
    booked_by := eb.booked_by
    branch := eb.branch
    notes := eb.notes
    build_link := eb.build_link
    expires_at := eb.expires_at
    released_at := some now
    timestamp := now }

/-- One loop iteration of `auto_release_expired_bookings`: update the booking row
by id to released, insert the EXPIRED history row. -/
def sweepStep (now : Timestamp) (s : Store) (eb : Booking) : Store :=
  { s with
    bookings := updateBookingById s.bookings eb.id (releasePatch now)
    history := s.history ++ [mkExpiredRow now eb] }

/-- SQL `auto_release_expired_bookings()`: loop over the expired selection,
releasing each row and appending its EXPIRED history row. The SQL function
RETURNS void — it yields no count. -/
def sweepExpired (s : Store) (now : Timestamp) : Store :=
  (expiredSelect s.bookings now).foldl (sweepStep now) s

/-- The number of rows the sweep's selection picks up (not returned by the SQL
function, which RETURNS void). -/
def sweepSelectionCount (s : Store) (now : Timestamp) : Nat :=
  (expiredSelect s.bookings now).length

/-- Admin `handleDelete`'s booking cascade:
`.update(deleted_at := now).eq('resource_id', rid).is('deleted_at', null)`.
It sets `deleted_at` and never touches `released_at`. -/
def softDeleteBookingsCascade (bs : List Booking) (rid : Nat) (now : Timestamp) :
    List Booking :=
  bs.map (fun b =>
    if b.resource_id == rid && b.deleted_at.isNone then { b with deleted_at := some now }
    else b)

/-- Admin `handleDelete`: refuse when an active booking exists; otherwise soft
delete the resource, cascade-soft-delete its bookings, and append DELETE history
rows for the resource's deleted bookings. -/
def handleDelete (s : Store) (r : Resource) (now : Timestamp) : Except String Store :=
  if 0 < (activeFor s.bookings r.id).length then
    .error ("Cannot delete resource with active bookings. Release the booking first.")
  else
    let resources1 := s.resources.map (fun x =>
      if x.id == r.id then { x with deleted_at := some now } else x)
    let bookings1 := softDeleteBookingsCascade s.bookings r.id now
    let deletedRows := bookings1.filter (fun b =>
      b.resource_id == r.id && !b.deleted_at.isNone)
    .ok { resources := resources1
          bookings := bookings1
          history := s.history ++ deletedRows.map (fun b =>
            { booking_id := b.id
              action := .DELETE
              resource_id := b.resource_id
              booked_by := b.booked_by
              branch := b.branch
              notes := b.notes
              build_link := b.build_link
              expires_at := b.expires_at
              released_at := b.released_at
              timestamp := now }) }

/-- The derived resource status. -/
inductive Status
  | FREE | LOCKED
deriving Repr, DecidableEq

/-- A resource together with its projected current booking and status. -/
structure ResourceView where
  resource : Resource
  current_booking : Option Booking
  status : Status
deriving Repr, DecidableEq

/-- The Dashboard's active-bookings pre-filter:
`released_at IS NULL, deleted_at IS NULL, expires_at > now`. -/
def activeBookingFilter (now : Timestamp) (b : Booking) : Bool :=
  b.released_at.isNone && b.deleted_at.isNone && decide (now < b.expires_at)

/-- The Dashboard's combine step: for each resource, `find` the first booking in
`activeBookings` with the matching `resource_id`; status is LOCKED when found,
FREE otherwise. -/
def projectResources (rs : List Resource) (activeBookings : List Booking) :
    List ResourceView :=
  rs.map (fun r =>
    let booking := activeBookings.find? (fun b => b.resource_id == r.id)
    { resource := r
      current_booking := booking
      status := if booking.isSome then .LOCKED else .FREE })

/-- A client command, with the nondeterministic inputs (clock reading, fresh id,
whether the unchecked history insert happens to succeed) made explicit. -/
inductive Op
  | opBook (resourceId : Nat) (inp : BookInput) (now freshId : Nat) (histOk : Bool)
  | opRelease (cb : Booking) (now : Timestamp) (histOk : Bool)
  | opExtend (cb : Booking) (newExpiresAt now : Timestamp) (histOk : Bool)
  | opEdit (cb : Booking) (inp : EditInput) (now : Timestamp) (histOk : Bool)
  | opSweep (now : Timestamp)

/-- Apply one command; a rejected command leaves the store unchanged. -/
def applyOp (s : Store) : Op → Store
  | .opBook rid inp now fid hk =>
      match handleBook s rid inp now fid hk with
      | .ok s1 => s1
      | .error _ => s
  | .opRelease cb now hk => handleRelease s cb now hk
  | .opExtend cb newExp now hk => handleExtend s cb newExp now hk
  | .opEdit cb inp now hk =>
      match handleEdit s cb inp now hk with
      | .ok s1 => s1
      | .error _ => s
  | .opSweep now => sweepExpired s now

/-- Apply a sequence of commands. -/
def applyOps (s : Store) (ops : List Op) : Store :=
  ops.foldl applyOp s

/-- Whether a handler result is a success. -/
def bookSucceeded : Except OpError Store → Bool
  | .ok _ => true
  | .error _ => false

/-- The bookings table of a handler result (empty on error, for stating facts
about successful results concretely). -/
def resultBookings : Except OpError Store → List Booking
  | .ok s => s.bookings
  | .error _ => []

/-- The history table of a handler result. -/
def resultHistory : Except OpError Store → List HistoryRow
  | .ok s => s.history
  | .error _ => []

/-! ### Concrete fixtures -/

/-- A live resource. -/
def resA : Resource := { id := 1, name := "qa-1" }

/-- A second live resource. -/
def resB : Resource := { id := 2, name := "qa-2" }

/-- A soft-deleted resource: its row still exists. -/
def resDel : Resource := { id := 5, name := "qa-del", deleted_at := some 1 }

/-- A valid booking input. -/
def inpA : BookInput := { bookedBy := "alice", branch := "feature/x", expiresAt := 100 }

/-- A second valid booking input. -/
def inpB : BookInput := { bookedBy := "bob", branch := "feature/y", expiresAt := 120 }

/-- A store with one resource and no bookings. -/
def store1 : Store := { resources := [resA], bookings := [], history := [] }

/-- A booking that has already been released (at time 1). -/
def bkRel : Booking :=
  { id := 10, resource_id := 1, booked_by := "alice", branch := "feature/x",
    expires_at := 100, released_at := some 1 }

/-- A store holding only the released booking `bkRel`. -/
def storeRel : Store := { resources := [resA], bookings := [bkRel], history := [] }

/-- An unreleased booking expired at time 5. -/
def bkExp1 : Booking :=
  { id := 21, resource_id := 1, booked_by := "alice", branch := "feature/x", expires_at := 5 }

/-- An unreleased booking expired at time 7. -/
def bkExp2 : Booking :=
  { id := 22, resource_id := 2, booked_by := "bob", branch := "feature/y", expires_at := 7 }

/-- A store with two expired, unreleased bookings. -/
def storeSweep : Store :=
  { resources := [resA, resB], bookings := [bkExp1, bkExp2], history := [] }

/-- An unreleased booking that is soft-deleted (deleted at time 2) and expired. -/
def bkDel : Booking :=
  { id := 31, resource_id := 1, booked_by := "alice", branch := "feature/x",
    expires_at := 3, released_at := none, deleted_at := some 2 }

/-- A store holding only the soft-deleted, unreleased, expired booking `bkDel`. -/
def storeDel : Store := { resources := [resA], bookings := [bkDel], history := [] }

/-- A store whose only resource is soft-deleted. -/
def storeResDel : Store := { resources := [resDel], bookings := [], history := [] }

/-- A bookings table satisfying invariant I1 (one active row for resource 7) but
violating the store's released-only partial unique index (two unreleased rows). -/
def demoBookings : List Booking :=
  [ { id := 51, resource_id := 7, booked_by := "alice", branch := "feature/x",
      expires_at := 100, released_at := none, deleted_at := some 3 },
    { id := 52, resource_id := 7, booked_by := "bob", branch := "feature/y",
      expires_at := 100, released_at := none, deleted_at := none } ]

/-- The error text Postgres attaches to a violation of the partial unique index. -/
def pgUniqueViolationMsg : String :=
  "duplicate key value violates unique constraint \"unique_active_booking_per_resource\""

/-- A valid edit input. -/
def edA : EditInput := { branch := "feature/z", notes := "retest", buildLink := "" }

/-! ### Generic list lemmas -/

lemma length_filter_le_of_imp {α : Type} (l : List α) (p q : α → Bool)
    (h : ∀ a, p a = true → q a = true) :
    (l.filter p).length ≤ (l.filter q).length := by
  induction l with
  | nil => simp
  | cons a t ih =>
      by_cases hp : p a = true
      · rw [List.filter_cons_of_pos hp, List.filter_cons_of_pos (h a hp)]
        simpa using ih
      · rw [List.filter_cons_of_neg (by simpa using hp)]
        by_cases hq : q a = true
        · rw [List.filter_cons_of_pos hq]
          exact le_trans ih (Nat.le_succ _)
        · rw [List.filter_cons_of_neg (by simpa using hq)]
          exact ih

lemma length_filter_map_le {α : Type} (l : List α) (p : α → Bool) (f : α → α)
    (h : ∀ a, p (f a) = true → f a = a) :
    ((l.map f).filter p).length ≤ (l.filter p).length := by
  induction l with
  | nil => simp
  | cons a t ih =>
      rw [List.map_cons]
      by_cases hp : p (f a) = true
      · rw [List.filter_cons_of_pos hp, List.filter_cons_of_pos (by rw [← h a hp]; exact hp)]
        simpa using ih
      · rw [List.filter_cons_of_neg (by simpa using hp)]
        by_cases hq : p a = true
        · rw [List.filter_cons_of_pos hq]
          exact le_trans ih (Nat.le_succ _)
        · rw [List.filter_cons_of_neg (by simpa using hq)]
          exact ih

lemma length_filter_map_eq {α : Type} (l : List α) (p : α → Bool) (f : α → α)
    (h : ∀ a, p (f a) = p a) :
    ((l.map f).filter p).length = (l.filter p).length := by
  induction l with
  | nil => simp
  | cons a t ih =>
      rw [List.map_cons]
      by_cases hp : p a = true
      · rw [List.filter_cons_of_pos (by rw [h a]; exact hp), List.filter_cons_of_pos hp]
        simpa using ih
      · rw [List.filter_cons_of_neg (by rw [h a]; simpa using hp),
            List.filter_cons_of_neg (by simpa using hp)]
        exact ih

/-! ### Structural lemmas about the store primitives -/

lemma insertHistoryUnchecked_bookings (s : Store) (h : HistoryRow) (histOk : Bool) :
    (insertHistoryUnchecked s h histOk).bookings = s.bookings := by
  unfold insertHistoryUnchecked
  split <;> rfl

lemma insertHistoryUnchecked_resources (s : Store) (h : HistoryRow) (histOk : Bool) :
    (insertHistoryUnchecked s h histOk).resources = s.resources := by
  unfold insertHistoryUnchecked
  split <;> rfl

lemma insertHistoryUnchecked_history (s : Store) (h : HistoryRow) (histOk : Bool) :
    (insertHistoryUnchecked s h histOk).history =
      if histOk then s.history ++ [h] else s.history := by
  unfold insertHistoryUnchecked
  split <;> simp [*]

lemma handleRelease_bookings (s : Store) (cb : Booking) (now : Timestamp) (hk : Bool) :
    (handleRelease s cb now hk).bookings =
      updateBookingById s.bookings cb.id (releasePatch now) := by
  unfold handleRelease
  rw [insertHistoryUnchecked_bookings]

lemma handleExtend_bookings (s : Store) (cb : Booking) (newExp now : Timestamp) (hk : Bool) :
    (handleExtend s cb newExp now hk).bookings =
      updateBookingById s.bookings cb.id (fun b => { b with expires_at := newExp }) := by
  unfold handleExtend
  rw [insertHistoryUnchecked_bookings]

lemma handleEdit_ok {s : Store} {cb : Booking} {inp : EditInput} {now : Timestamp}
    {hk : Bool} (hbr : jsTrim inp.branch ≠ "") :
    handleEdit s cb inp now hk =
      .ok (insertHistoryUnchecked
        { s with bookings := updateBookingById s.bookings cb.id (editPatch inp) }
        (mkEditRow cb inp now) hk) := by
  unfold handleEdit
  rw [if_neg hbr]

lemma insertBooking_ok {s : Store} {b : Booking} {s' : Store}
    (h : insertBooking s b = .ok s') :
    s'.bookings = s.bookings ++ [b] ∧ s'.resources = s.resources ∧ s'.history = s.history ∧
      s.resources.any (fun r => r.id == b.resource_id) = true ∧
      (b.released_at.isNone = true → unreleasedFor s.bookings b.resource_id = []) := by
  unfold insertBooking at h
  by_cases h1 : (s.resources.any (fun r => r.id == b.resource_id)) = true
  · rw [if_neg (by simp [h1])] at h
    by_cases h2 : (b.released_at.isNone && !(unreleasedFor s.bookings b.resource_id).isEmpty) = true
    · rw [if_pos h2] at h
      exact absurd h (by simp)
    · rw [if_neg h2] at h
      injection h with h
      subst h
      refine ⟨rfl, rfl, rfl, h1, ?_⟩
      intro hrel
      rw [hrel] at h2
      simp only [Bool.true_and, Bool.not_eq_true, Bool.not_eq_false] at h2
      simpa [List.isEmpty_iff] using h2
  · rw [if_pos (by simpa using h1)] at h
    exact absurd h (by simp)

/-! ### Case analyses of `handleBook` -/

lemma handleBook_empty_name {s : Store} {rid : Nat} {inp : BookInput} {now fid : Nat}
    {hk : Bool} (h : jsTrim inp.bookedBy = "") :
    handleBook s rid inp now fid hk = .error (.validationMsg ("Your name is required")) := by
  unfold handleBook
  rw [if_pos h]

lemma handleBook_empty_branch {s : Store} {rid : Nat} {inp : BookInput} {now fid : Nat}
    {hk : Bool} (h1 : jsTrim inp.bookedBy ≠ "") (h2 : jsTrim inp.branch = "") :
    handleBook s rid inp now fid hk = .error (.validationMsg ("Branch name is required")) := by
  unfold handleBook
  rw [if_neg h1, if_pos h2]

lemma handleBook_fk {s : Store} {rid : Nat} {inp : BookInput} {now fid : Nat} {hk : Bool}
    (h1 : jsTrim inp.bookedBy ≠ "") (h2 : jsTrim inp.branch ≠ "")
    (hres : (s.resources.any (fun r => r.id == rid)) = false) :
    handleBook s rid inp now fid hk = .error (.storeErr .fkViolation) := by
  unfold handleBook insertBooking
  rw [if_neg h1, if_neg h2]
  have : (s.resources.any (fun r => r.id == (bookingFromInput rid inp now fid).resource_id))
      = false := hres
  rw [if_pos (by simp [this])]

lemma handleBook_conflict {s : Store} {rid : Nat} {inp : BookInput} {now fid : Nat} {hk : Bool}
    (h1 : jsTrim inp.bookedBy ≠ "") (h2 : jsTrim inp.branch ≠ "")
    (hres : (s.resources.any (fun r => r.id == rid)) = true)
    (hne : unreleasedFor s.bookings rid ≠ []) :
    handleBook s rid inp now fid hk = .error (.storeErr .uniqueViolation) := by
  unfold handleBook insertBooking
  rw [if_neg h1, if_neg h2]
  have hres' : (s.resources.any (fun r => r.id == (bookingFromInput rid inp now fid).resource_id))
      = true := hres
  rw [if_neg (by simp [hres'])]
  have hrel : (bookingFromInput rid inp now fid).released_at.isNone = true := rfl
  have hemp : (unreleasedFor s.bookings (bookingFromInput rid inp now fid).resource_id).isEmpty
      = false := by
    show (unreleasedFor s.bookings rid).isEmpty = false
    simpa [List.isEmpty_iff] using hne
  rw [if_pos (by simp [hrel, hemp])]

lemma handleBook_ok {s : Store} {rid : Nat} {inp : BookInput} {now fid : Nat} {hk : Bool}
    (h1 : jsTrim inp.bookedBy ≠ "") (h2 : jsTrim inp.branch ≠ "")
    (hres : (s.resources.any (fun r => r.id == rid)) = true)
    (hempty : unreleasedFor s.bookings rid = []) :
    handleBook s rid inp now fid hk =
      .ok (insertHistoryUnchecked
            { s with bookings := s.bookings ++ [bookingFromInput rid inp now fid] }
            (mkBookRow rid inp now fid) hk) := by
  unfold handleBook insertBooking
  rw [if_neg h1, if_neg h2]
  have hres' : (s.resources.any (fun r => r.id == (bookingFromInput rid inp now fid).resource_id))
      = true := hres
  have hemp : (unreleasedFor s.bookings (bookingFromInput rid inp now fid).resource_id).isEmpty
      = true := by
    show (unreleasedFor s.bookings rid).isEmpty = true
    simp [List.isEmpty_iff, hempty]
  rw [if_neg (by simp [hres']), if_neg (by simp [hemp])]

/-- Inverse characterization: a successful `handleBook` appended exactly the new
booking row and the slot for the resource was free beforehand. -/
lemma handleBook_ok_inv {s : Store} {rid : Nat} {inp : BookInput} {now fid : Nat} {hk : Bool}
    {s' : Store} (h : handleBook s rid inp now fid hk = .ok s') :
    s'.bookings = s.bookings ++ [bookingFromInput rid inp now fid] ∧
      s'.resources = s.resources ∧ unreleasedFor s.bookings rid = [] := by
  unfold handleBook at h
  by_cases h1 : jsTrim inp.bookedBy = ""
  · rw [if_pos h1] at h
    exact absurd h (by simp)
  · rw [if_neg h1] at h
    by_cases h2 : jsTrim inp.branch = ""
    · rw [if_pos h2] at h
      exact absurd h (by simp)
    · rw [if_neg h2] at h
      cases hins : insertBooking s (bookingFromInput rid inp now fid) with
      | error e =>
          rw [hins] at h
          exact absurd h (by simp)
      | ok s1 =>
          rw [hins] at h
          injection h with h
          subst h
          obtain ⟨hb, hres, -, -, hfree⟩ := insertBooking_ok hins
          refine ⟨?_, ?_, hfree rfl⟩
          · rw [insertHistoryUnchecked_bookings, hb]
          · rw [insertHistoryUnchecked_resources, hres]

/-! ### Effect of the update calls on the unique-index filter -/

lemma unreleasedFor_release_le (bs : List Booking) (bid : Nat) (now : Timestamp) (rid : Nat) :
    (unreleasedFor (updateBookingById bs bid (releasePatch now)) rid).length ≤
      (unreleasedFor bs rid).length := by
  unfold unreleasedFor updateBookingById
  apply length_filter_map_le
  intro a ha
  by_cases hid : (a.id == bid) = true
  · rw [if_pos hid] at ha
    simp [releasePatch] at ha
  · rw [if_neg hid] at ha ⊢

lemma unreleasedFor_patch_eq (bs : List Booking) (bid : Nat) (patch : Booking → Booking)
    (hrid : ∀ b, (patch b).resource_id = b.resource_id)
    (hrel : ∀ b, (patch b).released_at = b.released_at) (rid : Nat) :
    (unreleasedFor (updateBookingById bs bid patch) rid).length =
      (unreleasedFor bs rid).length := by
  unfold unreleasedFor updateBookingById
  apply length_filter_map_eq
  intro a
  by_cases hid : (a.id == bid) = true
  · rw [if_pos hid, hrid, hrel]
  · rw [if_neg hid]

/-! ### Shape of the sweep -/

lemma foldl_sweepStep_resources (now : Timestamp) (l : List Booking) (s : Store) :
    (l.foldl (sweepStep now) s).resources = s.resources := by
  induction l generalizing s with
  | nil => rfl
  | cons eb t ih => simpa [sweepStep] using ih _

lemma foldl_sweepStep_history (now : Timestamp) (l : List Booking) (s : Store) :
    (l.foldl (sweepStep now) s).history = s.history ++ l.map (mkExpiredRow now) := by
  induction l generalizing s with
  | nil => simp
  | cons eb t ih =>
      rw [List.foldl_cons, ih]
      simp [sweepStep]

lemma foldl_sweepStep_bookings (now : Timestamp) (l : List Booking) (s : Store) :
    (l.foldl (sweepStep now) s).bookings =
      l.foldl (fun bs eb => updateBookingById bs eb.id (releasePatch now)) s.bookings := by
  induction l generalizing s with
  | nil => rfl
  | cons eb t ih =>
      rw [List.foldl_cons, List.foldl_cons, ih]
      rfl

lemma foldl_update_eq_map (now : Timestamp) (l : List Booking) (bs : List Booking) :
    l.foldl (fun bs2 eb => updateBookingById bs2 eb.id (releasePatch now)) bs =
      bs.map (fun b =>
        if l.any (fun eb => b.id == eb.id) then releasePatch now b else b) := by
  induction l generalizing bs with
  | nil => simp
  | cons eb t ih =>
      rw [List.foldl_cons, ih]
      unfold updateBookingById
      rw [List.map_map]
      apply List.map_congr_left
      intro b _
      by_cases hid : (b.id == eb.id) = true
      · simp only [Function.comp, if_pos hid]
        have : (t.any (fun e2 => (releasePatch now b).id == e2.id)) =
            (t.any (fun e2 => b.id == e2.id)) := rfl
        rw [this]
        have hidem : releasePatch now (releasePatch now b) = releasePatch now b := rfl
        have hcons : ((eb :: t).any (fun e2 => b.id == e2.id)) = true := by
          simp [List.any_cons, hid]
        rw [hcons]
        by_cases ht : (t.any (fun e2 => b.id == e2.id)) = true
        · rw [if_pos ht, hidem, if_pos rfl]
        · rw [if_neg ht, if_pos rfl]
      · simp only [Function.comp, if_neg hid]
        have hcons : ((eb :: t).any (fun e2 => b.id == e2.id)) =
            (t.any (fun e2 => b.id == e2.id)) := by
          simp [List.any_cons, hid]
        rw [hcons]

lemma sweep_bookings_any (s : Store) (now : Timestamp) :
    (sweepExpired s now).bookings = s.bookings.map (fun b =>
      if (expiredSelect s.bookings now).any (fun eb => b.id == eb.id) then releasePatch now b
      else b) := by
  unfold sweepExpired
  rw [foldl_sweepStep_bookings, foldl_update_eq_map]

lemma sweep_resources (s : Store) (now : Timestamp) :
    (sweepExpired s now).resources = s.resources :=
  foldl_sweepStep_resources now _ s

lemma sweep_history (s : Store) (now : Timestamp) :
    (sweepExpired s now).history =
      s.history ++ (expiredSelect s.bookings now).map (mkExpiredRow now) :=
  foldl_sweepStep_history now _ s

/-- On a table with distinct ids (the primary key), the sweep is exactly the
pointwise release of the rows its SELECT picks up. -/
lemma sweep_bookings_of_nodup {s : Store} (now : Timestamp)
    (hnd : (s.bookings.map (fun b => b.id)).Nodup) :
    (sweepExpired s now).bookings = s.bookings.map (fun b =>
      if b.released_at.isNone && decide (b.expires_at ≤ now) then releasePatch now b else b) := by
  rw [sweep_bookings_any]
  apply List.map_congr_left
  intro b hb
  by_cases hp : (b.released_at.isNone && decide (b.expires_at ≤ now)) = true
  · have hmem : b ∈ expiredSelect s.bookings now := List.mem_filter.mpr ⟨hb, hp⟩
    have hany : ((expiredSelect s.bookings now).any (fun eb => b.id == eb.id)) = true :=
      List.any_eq_true.mpr ⟨b, hmem, by simp⟩
    rw [if_pos hany, if_pos hp]
  · have hany : ((expiredSelect s.bookings now).any (fun eb => b.id == eb.id)) = false := by
      rw [Bool.eq_false_iff]
      intro hany
      obtain ⟨eb, hebmem, hebid⟩ := List.any_eq_true.mp hany
      have hebbk : eb ∈ s.bookings := List.mem_filter.mp hebmem |>.1
      have hebp : (eb.released_at.isNone && decide (eb.expires_at ≤ now)) = true :=
        List.mem_filter.mp hebmem |>.2
      have hbeq : b = eb :=
        List.inj_on_of_nodup_map hnd hb hebbk (by simpa using hebid)
      rw [hbeq] at hp
      exact hp hebp
    rw [if_neg (by simp [hany]), if_neg hp]

/-- After a sweep at `now`, the sweep's own SELECT at the same instant is empty. -/
lemma expiredSelect_after_sweep (s : Store) (now : Timestamp) :
    expiredSelect (sweepExpired s now).bookings now = [] := by
  rw [sweep_bookings_any]
  unfold expiredSelect
  rw [List.filter_eq_nil_iff]
  intro a ha
  obtain ⟨b, hb, rfl⟩ := List.mem_map.mp ha
  by_cases hany : ((s.bookings.filter
      (fun b2 => b2.released_at.isNone && decide (b2.expires_at ≤ now))).any
      (fun eb => b.id == eb.id)) = true
  · rw [if_pos hany]
    simp [releasePatch]
  · rw [if_neg hany]
    intro hp
    apply hany
    exact List.any_eq_true.mpr ⟨b, List.mem_filter.mpr ⟨hb, hp⟩, by simp⟩

/-- An immediate second sweep at the same instant is the identity: it transitions
zero bookings. -/
lemma sweep_twice (s : Store) (now : Timestamp) :
    sweepExpired (sweepExpired s now) now = sweepExpired s now := by
  have h := expiredSelect_after_sweep s now
  calc sweepExpired (sweepExpired s now) now
      = (expiredSelect (sweepExpired s now).bookings now).foldl (sweepStep now)
          (sweepExpired s now) := rfl
    _ = ([] : List Booking).foldl (sweepStep now) (sweepExpired s now) := by rw [h]
    _ = sweepExpired s now := rfl

/-- If every unreleased booking of a resource is expired, the sweep leaves the
resource's unique-index slot empty. -/
lemma unreleasedFor_after_sweep {s : Store} {now : Timestamp} {rid : Nat}
    (hall : ∀ b ∈ s.bookings, b.resource_id = rid → b.released_at = none →
      b.expires_at ≤ now) :
    unreleasedFor (sweepExpired s now).bookings rid = [] := by
  rw [sweep_bookings_any]
  unfold unreleasedFor expiredSelect
  rw [List.filter_eq_nil_iff]
  intro a ha
  obtain ⟨b, hb, rfl⟩ := List.mem_map.mp ha
  by_cases hany : ((s.bookings.filter
      (fun b2 => b2.released_at.isNone && decide (b2.expires_at ≤ now))).any
      (fun eb => b.id == eb.id)) = true
  · rw [if_pos hany]
    simp [releasePatch]
  · rw [if_neg hany]
    intro hp
    apply hany
    have hrid : b.resource_id = rid := by
      have := (Bool.and_eq_true _ _).mp hp |>.1
      simpa using this
    have hrel : b.released_at = none := by
      have := (Bool.and_eq_true _ _).mp hp |>.2
      simpa [Option.isNone_iff_eq_none] using this
    have hexp : b.expires_at ≤ now := hall b hb hrid hrel
    exact List.any_eq_true.mpr
      ⟨b, List.mem_filter.mpr ⟨hb, by simp [hrel, hexp]⟩, by simp⟩

/-! ### The partial unique index is preserved by every operation and implies I1 -/

lemma uniqueIndexOk_implies_I1 {bs : List Booking} (h : uniqueIndexOk bs) :
    invariantI1 bs := by
  intro rid
  refine le_trans ?_ (h rid)
  unfold activeFor unreleasedFor
  apply length_filter_le_of_imp
  intro a ha
  exact (Bool.and_eq_true _ _).mp ha |>.1

lemma uniqueIndexOk_append_new {bs : List Booking} {b : Booking}
    (h : uniqueIndexOk bs) (hfree : unreleasedFor bs b.resource_id = []) :
    uniqueIndexOk (bs ++ [b]) := by
  intro rid
  unfold unreleasedFor at *
  rw [List.filter_append]
  by_cases hp : (b.resource_id == rid && b.released_at.isNone) = true
  · have hrid : b.resource_id = rid := by
      have := (Bool.and_eq_true _ _).mp hp |>.1
      simpa using this
    have : List.filter (fun b2 => b2.resource_id == rid && b2.released_at.isNone) bs = [] := by
      rw [← hrid]
      exact hfree
    simp [this, List.filter_cons, hp]
  · have : List.filter (fun b2 => b2.resource_id == rid && b2.released_at.isNone) [b] = [] := by
      simp only [List.filter_cons, List.filter_nil]
      rw [if_neg hp]
    rw [this, List.append_nil]
    exact h rid

lemma applyOp_preserves_uniqueIndex (s : Store) (op : Op)
    (h : uniqueIndexOk s.bookings) : uniqueIndexOk (applyOp s op).bookings := by
  cases op with
  | opBook rid inp now fid hk =>
      simp only [applyOp]
      cases hb : handleBook s rid inp now fid hk with
      | error e => exact h
      | ok s1 =>
          obtain ⟨hb1, -, hfree⟩ := handleBook_ok_inv hb
          rw [hb1]
          exact uniqueIndexOk_append_new h hfree
  | opRelease cb now hk =>
      simp only [applyOp]
      intro rid
      unfold handleRelease
      rw [insertHistoryUnchecked_bookings]
      exact le_trans (unreleasedFor_release_le s.bookings cb.id now rid) (h rid)
  | opExtend cb newExp now hk =>
      simp only [applyOp]
      intro rid
      unfold handleExtend
      rw [insertHistoryUnchecked_bookings]
      show (unreleasedFor (updateBookingById s.bookings cb.id
        (fun b => { b with expires_at := newExp })) rid).length ≤ 1
      rw [unreleasedFor_patch_eq s.bookings cb.id
        (fun b => { b with expires_at := newExp }) (fun b => rfl) (fun b => rfl) rid]
      exact h rid
  | opEdit cb inp now hk =>
      simp only [applyOp]
      cases he : handleEdit s cb inp now hk with
      | error e => exact h
      | ok s1 =>
          intro rid
          unfold handleEdit at he
          by_cases hbr : jsTrim inp.branch = ""
          · rw [if_pos hbr] at he
            exact absurd he (by simp)
          · rw [if_neg hbr] at he
            injection he with he
            subst he
            rw [insertHistoryUnchecked_bookings]
            show (unreleasedFor (updateBookingById s.bookings cb.id (editPatch inp)) rid).length ≤ 1
            rw [unreleasedFor_patch_eq s.bookings cb.id (editPatch inp)
              (fun b => rfl) (fun b => rfl) rid]
            exact h rid
  | opSweep now =>
      simp only [applyOp]
      intro rid
      rw [sweep_bookings_any]
      unfold unreleasedFor at *
      refine le_trans (length_filter_map_le _ _ _ ?_) (h rid)
      intro a ha
      by_cases hany : ((expiredSelect s.bookings now).any (fun eb => a.id == eb.id)) = true
      · rw [if_pos hany] at ha
        simp [releasePatch] at ha
      · rw [if_neg hany]

lemma applyOps_preserves_uniqueIndex (s : Store) (ops : List Op)
    (h : uniqueIndexOk s.bookings) : uniqueIndexOk (applyOps s ops).bookings := by
  induction ops generalizing s with
  | nil => exact h
  | cons op t ih =>
      exact ih (applyOp s op) (applyOp_preserves_uniqueIndex s op h)

/-! ### Claim theorems -/

/-- C1: starting from any store state satisfying the unique-index constraint,
every sequence of book/release/extend/edit/sweepExpired operations preserves the
constraint, and hence invariant I1 holds in every reachable state: per resource,
at most one booking row simultaneously has `released_at` null and `deleted_at`
null. -/
theorem mutual_exclusion_invariant (s : Store) (ops : List Op)
    (h : uniqueIndexOk s.bookings) :
    uniqueIndexOk (applyOps s ops).bookings ∧ invariantI1 (applyOps s ops).bookings :=
  ⟨applyOps_preserves_uniqueIndex s ops h,
   uniqueIndexOk_implies_I1 (applyOps_preserves_uniqueIndex s ops h)⟩

/-- Witness for C1: a concrete run of book, conflicting book, release and sweep
from the empty store. -/
theorem mutual_exclusion_invariant_witness :
    uniqueIndexOk (applyOps store1
      [Op.opBook 1 inpA 0 10 true, Op.opBook 1 inpB 1 11 true,
       Op.opSweep 200, Op.opBook 1 inpB 201 12 true]).bookings ∧
    invariantI1 (applyOps store1
      [Op.opBook 1 inpA 0 10 true, Op.opBook 1 inpB 1 11 true,
       Op.opSweep 200, Op.opBook 1 inpB 201 12 true]).bookings :=
  mutual_exclusion_invariant store1
    [Op.opBook 1 inpA 0 10 true, Op.opBook 1 inpB 1 11 true,
     Op.opSweep 200, Op.opBook 1 inpB 201 12 true]
    (by intro rid; simp [store1, unreleasedFor])

/-- C5 (amended): the sweep releases exactly the rows selected by
`released_at IS NULL AND expires_at <= now` — with no `deleted_at` condition —
setting `released_at = now` on each and appending one EXPIRED history row with
the pre-sweep field values; its own selection is empty immediately afterwards,
so a second immediate sweep is the identity (transitions 0 rows). The SQL
function RETURNS void, so no count is returned to the caller. -/
theorem sweep_characterization (s : Store) (now : Timestamp)
    (hnd : (s.bookings.map (fun b => b.id)).Nodup) :
    (sweepExpired s now).bookings = s.bookings.map (fun b =>
      if b.released_at.isNone && decide (b.expires_at ≤ now) then releasePatch now b
      else b) ∧
    (sweepExpired s now).history =
      s.history ++ (expiredSelect s.bookings now).map (mkExpiredRow now) ∧
    sweepSelectionCount (sweepExpired s now) now = 0 ∧
    sweepExpired (sweepExpired s now) now = sweepExpired s now := by
  refine ⟨sweep_bookings_of_nodup now hnd, sweep_history s now, ?_, sweep_twice s now⟩
  unfold sweepSelectionCount
  rw [expiredSelect_after_sweep]
  rfl

/-- Witness for C5: sweeping a store with two expired bookings at time 10. -/
theorem sweep_characterization_witness :
    (sweepExpired storeSweep 10).bookings = storeSweep.bookings.map (fun b =>
      if b.released_at.isNone && decide (b.expires_at ≤ 10) then releasePatch 10 b
      else b) ∧
    (sweepExpired storeSweep 10).history =
      storeSweep.history ++ (expiredSelect storeSweep.bookings 10).map (mkExpiredRow 10) ∧
    sweepSelectionCount (sweepExpired storeSweep 10) 10 = 0 ∧
    sweepExpired (sweepExpired storeSweep 10) 10 = sweepExpired storeSweep 10 :=
  sweep_characterization storeSweep 10 (by decide)

/-- Counterexample for C5 as stated: a booking with `deleted_at` set (so outside
the claim's `deleted_at IS NULL` selection) is nevertheless released by the sweep
and gets an EXPIRED history row. -/
theorem sweep_releases_deleted_cex :
    bkDel.deleted_at = some 2 ∧
    (sweepExpired storeDel 5).bookings = [{ bkDel with released_at := some 5 }] ∧
    (sweepExpired storeDel 5).history = [mkExpiredRow 5 bkDel] := by
  decide

/-- C2 (amended): two `book` calls on a free resource, arbitrated by the store in
sequence: the first succeeds and the second always fails with the store's
unique-constraint violation, an error distinguishable by kind from every
client-side validation message. The surfaced text, however, is the store error's
own message (or the generic fallback), not an engine-made one. -/
theorem book_conflict_exactly_one (s : Store) (rid : Nat) (inp1 inp2 : BookInput)
    (now1 now2 fid1 fid2 : Nat) (hk1 hk2 : Bool)
    (hres : (s.resources.any (fun r => r.id == rid)) = true)
    (hfree : unreleasedFor s.bookings rid = [])
    (hv1a : jsTrim inp1.bookedBy ≠ "") (hv1b : jsTrim inp1.branch ≠ "")
    (hv2a : jsTrim inp2.bookedBy ≠ "") (hv2b : jsTrim inp2.branch ≠ "") :
    bookSucceeded (handleBook s rid inp1 now1 fid1 hk1) = true ∧
    (∀ s1, handleBook s rid inp1 now1 fid1 hk1 = .ok s1 →
      handleBook s1 rid inp2 now2 fid2 hk2 = .error (.storeErr .uniqueViolation)) ∧
    (∀ m, (OpError.storeErr StoreErr.uniqueViolation) ≠ OpError.validationMsg m) := by
  refine ⟨?_, ?_, ?_⟩
  · rw [handleBook_ok hv1a hv1b hres hfree]
    rfl
  · intro s1 h1
    obtain ⟨hbks, hress, -⟩ := handleBook_ok_inv h1
    apply handleBook_conflict hv2a hv2b
    · rw [hress]
      exact hres
    · rw [hbks]
      have hmem : bookingFromInput rid inp1 now1 fid1 ∈
          unreleasedFor (s.bookings ++ [bookingFromInput rid inp1 now1 fid1]) rid :=
        List.mem_filter.mpr
          ⟨List.mem_append_right _ (List.mem_singleton_self _), by simp [bookingFromInput]⟩
      exact List.ne_nil_of_mem hmem
  · intro m h
    cases h

/-- Witness for C2: two concrete bookings of resource 1 by alice then bob. -/
theorem book_conflict_exactly_one_witness :
    bookSucceeded (handleBook store1 1 inpA 0 10 true) = true ∧
    (∀ s1, handleBook store1 1 inpA 0 10 true = .ok s1 →
      handleBook s1 1 inpB 1 11 true = .error (.storeErr .uniqueViolation)) ∧
    (∀ m, (OpError.storeErr StoreErr.uniqueViolation) ≠ OpError.validationMsg m) :=
  book_conflict_exactly_one store1 1 inpA inpB 0 1 10 11 true true
    (by decide) (by decide) (by decide) (by decide) (by decide) (by decide)

/-- Counterexample for C2 as stated: the conflict is surfaced through
`err.message || 'Failed to create booking'`; the displayed text is the store's
constraint-violation message, or the literal generic fallback — never the claim's
"resource already booked". -/
theorem book_conflict_message_cex :
    surfacedBookError (.storeErr .uniqueViolation) (fun _ => pgUniqueViolationMsg) ≠
      ("resource already booked") ∧
    surfacedBookError (.storeErr .uniqueViolation) (fun _ => ("")) =
      ("Failed to create booking") := by
  constructor
  · decide
  · rfl

/-- C3 (amended): the pair (booking mutation, history append) is not atomic.
For `book`, one direction does hold: a failed insert aborts the operation before
any history write. But a failed history insert is ignored: `book` still reports
success with the booking row inserted and the history unchanged, and `release`
likewise mutates the booking row while appending nothing. -/
theorem state_history_not_atomic (s : Store) (rid : Nat) (inp : BookInput)
    (now fid : Nat) (cb : Booking) (t : Timestamp)
    (hv1 : jsTrim inp.bookedBy ≠ "") (hv2 : jsTrim inp.branch ≠ "") :
    (∀ e, insertBooking s (bookingFromInput rid inp now fid) = .error e →
      ∀ hk, handleBook s rid inp now fid hk = .error (.storeErr e)) ∧
    ((s.resources.any (fun r => r.id == rid)) = true →
      unreleasedFor s.bookings rid = [] →
      handleBook s rid inp now fid false =
        .ok { s with bookings := s.bookings ++ [bookingFromInput rid inp now fid] }) ∧
    ((handleRelease s cb t false).bookings =
      updateBookingById s.bookings cb.id (releasePatch t) ∧
     (handleRelease s cb t false).history = s.history) := by
  refine ⟨?_, ?_, rfl, rfl⟩
  · intro e he hk
    unfold handleBook
    rw [if_neg hv1, if_neg hv2, he]
  · intro hres hfree
    rw [handleBook_ok hv1 hv2 hres hfree]
    rfl

/-- Witness for C3: concrete instantiation on the one-resource store. -/
theorem state_history_not_atomic_witness :
    (∀ e, insertBooking store1 (bookingFromInput 1 inpA 0 10) = .error e →
      ∀ hk, handleBook store1 1 inpA 0 10 hk = .error (.storeErr e)) ∧
    ((store1.resources.any (fun r => r.id == 1)) = true →
      unreleasedFor store1.bookings 1 = [] →
      handleBook store1 1 inpA 0 10 false =
        .ok { store1 with bookings := store1.bookings ++ [bookingFromInput 1 inpA 0 10] }) ∧
    ((handleRelease store1 bkRel 2 false).bookings =
      updateBookingById store1.bookings bkRel.id (releasePatch 2) ∧
     (handleRelease store1 bkRel 2 false).history = store1.history) :=
  state_history_not_atomic store1 1 inpA 0 10 bkRel 2 (by decide) (by decide)

/-- Counterexample for C3 as stated: with the history insert failing, `book`
still succeeds — the booking row is inserted and no BOOK history row exists, so
the pair did not fail together. -/
theorem state_history_not_atomic_cex :
    bookSucceeded (handleBook store1 1 inpA 0 10 false) = true ∧
    resultBookings (handleBook store1 1 inpA 0 10 false) = [bookingFromInput 1 inpA 0 10] ∧
    resultHistory (handleBook store1 1 inpA 0 10 false) = [] := by
  decide

/-- C4 (amended): `release` is an unconditional single-row update by id with no
`released_at IS NULL` re-check: whatever the row's current `released_at`, it is
overwritten with the new time, and a further RELEASE history row is appended each
time the unchecked insert succeeds. Releasing twice is therefore not equivalent
to releasing once (the timestamp moves and a second history row appears), though
no error is ever reported. -/
theorem release_unconditional_overwrite (s : Store) (cb b : Booking)
    (t1 t2 : Timestamp) (hk1 hk2 : Bool) (hb : b ∈ s.bookings) (hid : b.id = cb.id) :
    ({ b with released_at := some t1 } ∈ (handleRelease s cb t1 hk1).bookings) ∧
    ({ b with released_at := some t2 } ∈
      (handleRelease (handleRelease s cb t1 hk1) cb t2 hk2).bookings) ∧
    ((handleRelease s cb t1 true).history = s.history ++ [mkReleaseRow cb t1]) ∧
    ((handleRelease (handleRelease s cb t1 true) cb t2 true).history =
      s.history ++ [mkReleaseRow cb t1, mkReleaseRow cb t2]) := by
  have hbeq : (b.id == cb.id) = true := by simp [hid]
  refine ⟨?_, ?_, ?_, ?_⟩
  · rw [handleRelease_bookings]
    have h1 : releasePatch t1 b ∈
        List.map (fun b2 => if b2.id == cb.id then releasePatch t1 b2 else b2) s.bookings := by
      simpa [hbeq] using List.mem_map_of_mem
        (fun b2 => if b2.id == cb.id then releasePatch t1 b2 else b2) hb
    exact h1
  · rw [handleRelease_bookings, handleRelease_bookings]
    have h1 : releasePatch t1 b ∈
        List.map (fun b2 => if b2.id == cb.id then releasePatch t1 b2 else b2) s.bookings := by
      simpa [hbeq] using List.mem_map_of_mem
        (fun b2 => if b2.id == cb.id then releasePatch t1 b2 else b2) hb
    have h2 : releasePatch t2 (releasePatch t1 b) ∈
        List.map (fun b2 => if b2.id == cb.id then releasePatch t2 b2 else b2)
          (List.map (fun b2 => if b2.id == cb.id then releasePatch t1 b2 else b2) s.bookings) := by
      have hbeq2 : ((releasePatch t1 b).id == cb.id) = true := hbeq
      simpa [hbeq2] using List.mem_map_of_mem
        (fun b2 => if b2.id == cb.id then releasePatch t2 b2 else b2) h1
    exact h2
  · rfl
  · simp [handleRelease, insertHistoryUnchecked]

/-- Witness for C4: the released booking `bkRel` released again at times 2 and 3. -/
theorem release_unconditional_overwrite_witness :
    ({ bkRel with released_at := some 2 } ∈ (handleRelease storeRel bkRel 2 true).bookings) ∧
    ({ bkRel with released_at := some 3 } ∈
      (handleRelease (handleRelease storeRel bkRel 2 true) bkRel 3 true).bookings) ∧
    ((handleRelease storeRel bkRel 2 true).history =
      storeRel.history ++ [mkReleaseRow bkRel 2]) ∧
    ((handleRelease (handleRelease storeRel bkRel 2 true) bkRel 3 true).history =
      storeRel.history ++ [mkReleaseRow bkRel 2, mkReleaseRow bkRel 3]) :=
  release_unconditional_overwrite storeRel bkRel bkRel 2 3 true true
    (by decide) (by decide)

/-- Counterexample for C4 as stated: releasing the already-released `bkRel`
(released at 1) at time 2 changes its `released_at` to 2 and appends another
RELEASE history row — not a no-op, and not equivalent to the single release. -/
theorem release_not_idempotent_cex :
    bkRel.released_at = some 1 ∧
    (handleRelease storeRel bkRel 2 true).bookings = [{ bkRel with released_at := some 2 }] ∧
    (handleRelease storeRel bkRel 2 true).history = [mkReleaseRow bkRel 2] := by
  decide

/-- C6: the mutual-exclusion check of `book` is time-oblivious. While a resource
holds an unreleased booking whose expiry has passed, a new `book` on it still
fails with the unique-constraint violation; once the sweep has released the
resource's (all expired) unreleased bookings, `book` succeeds. -/
theorem book_time_oblivious (s : Store) (rid : Nat) (b : Booking) (inp : BookInput)
    (now now2 fid fid2 : Nat) (hk : Bool)
    (hb : b ∈ s.bookings) (hrid : b.resource_id = rid) (hrel : b.released_at = none)
    (hexp : b.expires_at ≤ now)
    (hres : (s.resources.any (fun r => r.id == rid)) = true)
    (hv1 : jsTrim inp.bookedBy ≠ "") (hv2 : jsTrim inp.branch ≠ "")
    (hall : ∀ b2 ∈ s.bookings, b2.resource_id = rid → b2.released_at = none →
      b2.expires_at ≤ now) :
    handleBook s rid inp now fid hk = .error (.storeErr .uniqueViolation) ∧
    bookSucceeded (handleBook (sweepExpired s now) rid inp now2 fid2 hk) = true := by
  constructor
  · apply handleBook_conflict hv1 hv2 hres
    exact List.ne_nil_of_mem (List.mem_filter.mpr ⟨hb, by simp [hrid, hrel]⟩)
  · have hres2 : ((sweepExpired s now).resources.any (fun r => r.id == rid)) = true := by
      rw [sweep_resources]
      exact hres
    have hfree : unreleasedFor (sweepExpired s now).bookings rid = [] :=
      unreleasedFor_after_sweep hall
    rw [handleBook_ok hv1 hv2 hres2 hfree]
    rfl

/-- Witness for C6: resource 1 of `storeSweep` holds the expired, unreleased
`bkExp1` at time 10; bob's book fails, then succeeds after the sweep. -/
theorem book_time_oblivious_witness :
    handleBook storeSweep 1 inpB 10 41 true = .error (.storeErr .uniqueViolation) ∧
    bookSucceeded (handleBook (sweepExpired storeSweep 10) 1 inpB 11 42 true) = true :=
  book_time_oblivious storeSweep 1 bkExp1 inpB 10 11 41 42 true
    (by decide) (by decide) (by decide) (by decide) (by decide) (by decide) (by decide)
    (by decide)

/-- C7 (amended): `book` rejects an empty (after trim) name or branch with the
form's validation message before any store call; a resource id that resolves to
no row at all fails with the store's foreign-key violation; but a soft-deleted
resource row still satisfies the FK, so when the trimmed inputs are non-empty,
the row exists (deleted or not) and the unique slot is free, the insert succeeds
and the new row has `released_at` null. -/
theorem book_preconditions (s : Store) (rid : Nat) (inp : BookInput) (now fid : Nat)
    (hk : Bool) :
    (jsTrim inp.bookedBy = "" →
      handleBook s rid inp now fid hk = .error (.validationMsg ("Your name is required"))) ∧
    (jsTrim inp.bookedBy ≠ "" → jsTrim inp.branch = "" →
      handleBook s rid inp now fid hk = .error (.validationMsg ("Branch name is required"))) ∧
    (jsTrim inp.bookedBy ≠ "" → jsTrim inp.branch ≠ "" →
      (s.resources.any (fun r => r.id == rid)) = false →
      handleBook s rid inp now fid hk = .error (.storeErr .fkViolation)) ∧
    (jsTrim inp.bookedBy ≠ "" → jsTrim inp.branch ≠ "" →
      (s.resources.any (fun r => r.id == rid)) = true →
      unreleasedFor s.bookings rid = [] →
      resultBookings (handleBook s rid inp now fid hk) =
        s.bookings ++ [bookingFromInput rid inp now fid] ∧
      (bookingFromInput rid inp now fid).released_at = none) := by
  refine ⟨handleBook_empty_name, handleBook_empty_branch, handleBook_fk, ?_⟩
  intro h1 h2 hres hfree
  rw [handleBook_ok h1 h2 hres hfree]
  constructor
  · show (insertHistoryUnchecked _ _ hk).bookings = _
    rw [insertHistoryUnchecked_bookings]
  · rfl

/-- Witness for C7: the amended statement instantiated on the store whose only
resource is soft-deleted. -/
theorem book_preconditions_witness :
    (jsTrim inpA.bookedBy = "" →
      handleBook storeResDel 5 inpA 0 40 true =
        .error (.validationMsg ("Your name is required"))) ∧
    (jsTrim inpA.bookedBy ≠ "" → jsTrim inpA.branch = "" →
      handleBook storeResDel 5 inpA 0 40 true =
        .error (.validationMsg ("Branch name is required"))) ∧
    (jsTrim inpA.bookedBy ≠ "" → jsTrim inpA.branch ≠ "" →
      (storeResDel.resources.any (fun r => r.id == 5)) = false →
      handleBook storeResDel 5 inpA 0 40 true = .error (.storeErr .fkViolation)) ∧
    (jsTrim inpA.bookedBy ≠ "" → jsTrim inpA.branch ≠ "" →
      (storeResDel.resources.any (fun r => r.id == 5)) = true →
      unreleasedFor storeResDel.bookings 5 = [] →
      resultBookings (handleBook storeResDel 5 inpA 0 40 true) =
        storeResDel.bookings ++ [bookingFromInput 5 inpA 0 40] ∧
      (bookingFromInput 5 inpA 0 40).released_at = none) :=
  book_preconditions storeResDel 5 inpA 0 40 true

/-- Counterexample for C7 as stated: booking the soft-deleted resource `resDel`
does not fail with any not-found error — the insert succeeds and creates an
active row. -/
theorem book_ignores_soft_deleted_resource_cex :
    resDel.deleted_at = some 1 ∧
    bookSucceeded (handleBook storeResDel 5 inpA 0 40 true) = true ∧
    resultBookings (handleBook storeResDel 5 inpA 0 40 true) =
      [bookingFromInput 5 inpA 0 40] := by
  decide

/-- C8 (amended): `extend` and `edit` run unconditional updates by id with no
re-check of `released_at`, and ignore the update's result entirely: against an
already-released booking they do not fail — the released row is mutated and an
EXTEND/EDIT history row is appended exactly as for an active booking. -/
theorem extend_edit_no_release_guard (s : Store) (cb b : Booking)
    (newExp now t : Timestamp) (hk : Bool) (inp : EditInput)
    (hb : b ∈ s.bookings) (hid : b.id = cb.id) (hrel : b.released_at = some t) :
    ({ b with expires_at := newExp } ∈ (handleExtend s cb newExp now hk).bookings) ∧
    ({ b with expires_at := newExp } : Booking).released_at = some t ∧
    ((handleExtend s cb newExp now true).history = s.history ++ [mkExtendRow cb newExp now]) ∧
    (jsTrim inp.branch ≠ "" →
      bookSucceeded (handleEdit s cb inp now hk) = true ∧
      editPatch inp b ∈ resultBookings (handleEdit s cb inp now hk)) := by
  have hbeq : (b.id == cb.id) = true := by simp [hid]
  refine ⟨?_, hrel, ?_, ?_⟩
  · rw [handleExtend_bookings]
    have h1 : { b with expires_at := newExp } ∈ List.map
        (fun b2 => if b2.id == cb.id then { b2 with expires_at := newExp } else b2)
        s.bookings := by
      simpa [hbeq] using List.mem_map_of_mem
        (fun b2 => if b2.id == cb.id then { b2 with expires_at := newExp } else b2) hb
    exact h1
  · simp [handleExtend, insertHistoryUnchecked]
  · intro hbr
    rw [handleEdit_ok hbr]
    constructor
    · rfl
    · show editPatch inp b ∈ (insertHistoryUnchecked _ _ hk).bookings
      rw [insertHistoryUnchecked_bookings]
      have h1 : editPatch inp b ∈ List.map
          (fun b2 => if b2.id == cb.id then editPatch inp b2 else b2) s.bookings := by
        simpa [hbeq] using List.mem_map_of_mem
          (fun b2 => if b2.id == cb.id then editPatch inp b2 else b2) hb
      exact h1

/-- Witness for C8: extending and editing the already-released `bkRel`. -/
theorem extend_edit_no_release_guard_witness :
    ({ bkRel with expires_at := 200 } ∈ (handleExtend storeRel bkRel 200 3 true).bookings) ∧
    ({ bkRel with expires_at := 200 } : Booking).released_at = some 1 ∧
    ((handleExtend storeRel bkRel 200 3 true).history =
      storeRel.history ++ [mkExtendRow bkRel 200 3]) ∧
    (jsTrim edA.branch ≠ "" →
      bookSucceeded (handleEdit storeRel bkRel edA 3 true) = true ∧
      editPatch edA bkRel ∈ resultBookings (handleEdit storeRel bkRel edA 3 true)) :=
  extend_edit_no_release_guard storeRel bkRel bkRel 200 3 1 true edA
    (by decide) (by decide) (by decide)

/-- Counterexample for C8 as stated: against the released `bkRel`, `extend`
neither errors nor leaves the store unchanged — it rewrites the row's expiry and
appends an EXTEND history row, and `edit` likewise succeeds and mutates. -/
theorem extend_released_cex :
    bkRel.released_at = some 1 ∧
    (handleExtend storeRel bkRel 200 3 true).bookings = [{ bkRel with expires_at := 200 }] ∧
    (handleExtend storeRel bkRel 200 3 true).history = [mkExtendRow bkRel 200 3] ∧
    bookSucceeded (handleEdit storeRel bkRel edA 3 true) = true ∧
    resultBookings (handleEdit storeRel bkRel edA 3 true) = [editPatch edA bkRel] := by
  decide

/-- C9: the status projection is a pure function of the resource list and the
pre-filtered active bookings. Every resource yields one view; with no matching
booking in the filtered list (in particular when all of the resource's bookings
are expired), the view is FREE with no current booking; with a matching booking
the view is LOCKED carrying a matching booking from the list — and when the
matching booking is unique, exactly that booking. -/
theorem projection_pure_correct (rs : List Resource) (bs : List Booking)
    (now : Timestamp) (r : Resource) (hr : r ∈ rs) :
    ∃ v ∈ projectResources rs (bs.filter (activeBookingFilter now)),
      v.resource = r ∧
      ((∀ b ∈ bs.filter (activeBookingFilter now), b.resource_id ≠ r.id) →
        v.status = Status.FREE ∧ v.current_booking = none) ∧
      (∀ b ∈ bs.filter (activeBookingFilter now), b.resource_id = r.id →
        v.status = Status.LOCKED ∧
        ∃ cb, v.current_booking = some cb ∧ cb ∈ bs.filter (activeBookingFilter now) ∧
          cb.resource_id = r.id) ∧
      ((∀ b1 ∈ bs.filter (activeBookingFilter now), ∀ b2 ∈ bs.filter (activeBookingFilter now),
          b1.resource_id = r.id → b2.resource_id = r.id → b1 = b2) →
        ∀ b ∈ bs.filter (activeBookingFilter now), b.resource_id = r.id →
          v.current_booking = some b) ∧
      ((∀ b ∈ bs, b.resource_id = r.id → b.expires_at ≤ now) →
        v.status = Status.FREE ∧ v.current_booking = none) := by
  refine ⟨_, List.mem_map_of_mem _ hr, rfl, ?_, ?_, ?_, ?_⟩
  · intro hnone
    have hfind : (bs.filter (activeBookingFilter now)).find?
        (fun b => b.resource_id == r.id) = none :=
      List.find?_eq_none.mpr (fun x hx => by simpa using hnone x hx)
    constructor
    · show (if ((bs.filter (activeBookingFilter now)).find?
          (fun b => b.resource_id == r.id)).isSome then Status.LOCKED else Status.FREE) =
        Status.FREE
      rw [hfind]
      rfl
    · show (bs.filter (activeBookingFilter now)).find? (fun b => b.resource_id == r.id) = none
      exact hfind
  · intro b hbmem hbid
    have hsome : ((bs.filter (activeBookingFilter now)).find?
        (fun b2 => b2.resource_id == r.id)).isSome = true :=
      List.find?_isSome.mpr ⟨b, hbmem, by simp [hbid]⟩
    obtain ⟨cb, hcb⟩ := Option.isSome_iff_exists.mp hsome
    constructor
    · show (if ((bs.filter (activeBookingFilter now)).find?
          (fun b2 => b2.resource_id == r.id)).isSome then Status.LOCKED else Status.FREE) =
        Status.LOCKED
      rw [hcb]
      rfl
    · exact ⟨cb, hcb, List.mem_of_find?_eq_some hcb, by simpa using List.find?_some hcb⟩
  · intro huniq b hbmem hbid
    have hsome : ((bs.filter (activeBookingFilter now)).find?
        (fun b2 => b2.resource_id == r.id)).isSome = true :=
      List.find?_isSome.mpr ⟨b, hbmem, by simp [hbid]⟩
    obtain ⟨cb, hcb⟩ := Option.isSome_iff_exists.mp hsome
    have hcbmem := List.mem_of_find?_eq_some hcb
    have hcbid : cb.resource_id = r.id := by simpa using List.find?_some hcb
    have : cb = b := huniq cb hcbmem b hbmem hcbid hbid
    show (bs.filter (activeBookingFilter now)).find? (fun b2 => b2.resource_id == r.id) =
      some b
    rw [hcb, this]
  · intro hexp
    have hnone : ∀ b ∈ bs.filter (activeBookingFilter now), b.resource_id ≠ r.id := by
      intro b hbmem heq
      obtain ⟨hbbs, hbf⟩ := List.mem_filter.mp hbmem
      have hlt : now < b.expires_at := by
        have := hbf
        unfold activeBookingFilter at this
        simp only [Bool.and_eq_true, decide_eq_true_eq] at this
        exact this.2
      have hle := hexp b hbbs heq
      exact absurd hle (Nat.not_le.mpr hlt)
    have hfind : (bs.filter (activeBookingFilter now)).find?
        (fun b => b.resource_id == r.id) = none :=
      List.find?_eq_none.mpr (fun x hx => by simpa using hnone x hx)
    constructor
    · show (if ((bs.filter (activeBookingFilter now)).find?
          (fun b => b.resource_id == r.id)).isSome then Status.LOCKED else Status.FREE) =
        Status.FREE
      rw [hfind]
      rfl
    · show (bs.filter (activeBookingFilter now)).find? (fun b => b.resource_id == r.id) = none
      exact hfind

/-- Witness for C9: projecting `resA` against one current booking for resource 1
and one expired booking for resource 2 at time 10. -/
theorem projection_pure_correct_witness :
    ∃ v ∈ projectResources [resA, resB]
        ([{ bkExp1 with expires_at := 50 }, bkExp2].filter (activeBookingFilter 10)),
      v.resource = resA ∧
      ((∀ b ∈ [{ bkExp1 with expires_at := 50 }, bkExp2].filter (activeBookingFilter 10),
          b.resource_id ≠ resA.id) →
        v.status = Status.FREE ∧ v.current_booking = none) ∧
      (∀ b ∈ [{ bkExp1 with expires_at := 50 }, bkExp2].filter (activeBookingFilter 10),
          b.resource_id = resA.id →
        v.status = Status.LOCKED ∧
        ∃ cb, v.current_booking = some cb ∧
          cb ∈ [{ bkExp1 with expires_at := 50 }, bkExp2].filter (activeBookingFilter 10) ∧
          cb.resource_id = resA.id) ∧
      ((∀ b1 ∈ [{ bkExp1 with expires_at := 50 }, bkExp2].filter (activeBookingFilter 10),
          ∀ b2 ∈ [{ bkExp1 with expires_at := 50 }, bkExp2].filter (activeBookingFilter 10),
          b1.resource_id = resA.id → b2.resource_id = resA.id → b1 = b2) →
        ∀ b ∈ [{ bkExp1 with expires_at := 50 }, bkExp2].filter (activeBookingFilter 10),
          b.resource_id = resA.id → v.current_booking = some b) ∧
      ((∀ b ∈ [{ bkExp1 with expires_at := 50 }, bkExp2], b.resource_id = resA.id →
          b.expires_at ≤ 10) →
        v.status = Status.FREE ∧ v.current_booking = none) :=
  projection_pure_correct [resA, resB] [{ bkExp1 with expires_at := 50 }, bkExp2] 10 resA
    (by decide)

/-- C10: the store's uniqueness enforcement is filtered only on
`released_at IS NULL` and ignores `deleted_at`. This is strictly stronger than
invariant I1: it implies I1, while `demoBookings` satisfies I1 yet violates it.
Consequently a soft-deleted-but-unreleased booking still occupies the slot and a
new `book` on its resource still conflicts; and the resource-deletion cascade
sets `deleted_at` on the resource's bookings while never touching `released_at`. -/
theorem unique_slot_ignores_deleted (s : Store) (rid : Nat) (b : Booking)
    (inp : BookInput) (now fid : Nat) (hk : Bool) (dts : Timestamp)
    (hb : b ∈ s.bookings) (hrel : b.released_at = none) (hrid : b.resource_id = rid)
    (hres : (s.resources.any (fun r => r.id == rid)) = true)
    (hv1 : jsTrim inp.bookedBy ≠ "") (hv2 : jsTrim inp.branch ≠ "") :
    (uniqueIndexOk s.bookings → invariantI1 s.bookings) ∧
    (invariantI1 demoBookings ∧ ¬ uniqueIndexOk demoBookings) ∧
    handleBook s rid inp now fid hk = .error (.storeErr .uniqueViolation) ∧
    ((softDeleteBookingsCascade s.bookings rid dts).map (fun b2 => b2.released_at) =
      s.bookings.map (fun b2 => b2.released_at)) ∧
    (∀ b2 ∈ softDeleteBookingsCascade s.bookings rid dts, b2.resource_id = rid →
      b2.deleted_at ≠ none) := by
  refine ⟨uniqueIndexOk_implies_I1, ⟨?_, ?_⟩, ?_, ?_, ?_⟩
  · intro rid2
    by_cases h7 : ((7 : Nat) == rid2) = true
    · simp [activeFor, demoBookings, List.filter_cons, h7]
    · simp [activeFor, demoBookings, List.filter_cons, h7]
  · intro h
    exact absurd (h 7) (by decide)
  · apply handleBook_conflict hv1 hv2 hres
    exact List.ne_nil_of_mem (List.mem_filter.mpr ⟨hb, by simp [hrid, hrel]⟩)
  · unfold softDeleteBookingsCascade
    rw [List.map_map]
    apply List.map_congr_left
    intro b2 _
    by_cases hc : (b2.resource_id == rid && b2.deleted_at.isNone) = true
    · simp [Function.comp, hc]
    · simp [Function.comp, hc]
  · intro b2 hmem hrid2
    obtain ⟨b0, hb0, rfl⟩ := List.mem_map.mp hmem
    by_cases hc : (b0.resource_id == rid && b0.deleted_at.isNone) = true
    · simp [hc]
    · rw [if_neg hc] at hrid2 ⊢
      intro hnone
      apply hc
      simp [hrid2, hnone]

/-- Witness for C10: the store whose only booking `bkDel` is soft-deleted yet
unreleased; booking resource 1 still conflicts; the cascade at time 9 keeps
every `released_at`. -/
theorem unique_slot_ignores_deleted_witness :
    (uniqueIndexOk storeDel.bookings → invariantI1 storeDel.bookings) ∧
    (invariantI1 demoBookings ∧ ¬ uniqueIndexOk demoBookings) ∧
    handleBook storeDel 1 inpB 4 43 true = .error (.storeErr .uniqueViolation) ∧
    ((softDeleteBookingsCascade storeDel.bookings 1 9).map (fun b2 => b2.released_at) =
      storeDel.bookings.map (fun b2 => b2.released_at)) ∧
    (∀ b2 ∈ softDeleteBookingsCascade storeDel.bookings 1 9, b2.resource_id = 1 →
      b2.deleted_at ≠ none) :=
  unique_slot_ignores_deleted storeDel 1 bkDel inpB 4 43 true 9
    (by decide) (by decide) (by decide) (by decide) (by decide) (by decide)

end Tandem
